import Mathlib

/-!
Shallow embedding of the core of `apimodelgen` (a Go code generator that
derives API DTO structs and Patch counterparts from scanned struct
declarations).  The embedding covers:

* the working-type graph builder (`internal/parser/builder.go`),
* the transformation pipeline (exclusion, deprecation filtering, embedding
  flattening, suffixing, deduplication),
* the API mapper and Patch synthesizer (`internal/parser/mapper.go`),
* option normalization (`pkg/parser` options, `Options.Normalize`).

Modelling conventions, stated once here:

* Go strings are Lean `String`s; `strings.Contains`, `strings.HasSuffix`,
  `strings.Split`, `strings.ToLower`, `strings.EqualFold` are modelled on
  character lists.  Go's Unicode case folding and Lean's agree on ASCII,
  which is all the generator's identifiers and tags use.
* `reflect.StructTag` values are modelled as association lists
  `List (String × String)`; `Lookup`/`Get` are first-match lookup.  The Go
  code only ever inspects tags through `Lookup`/`Get`, for which a
  well-formed tag literal is exactly such a map.
* Go's mutable pointer graph is modelled by value passing: the builder
  state carries a name-keyed table (`byName`), and a local type reference
  resolves to the table entry current at resolution time.  Go map
  iteration order is nondeterministic; the embedding iterates in insertion
  order.  Every theorem below is insensitive to these determinizations.
* `go/ast` type expressions are abstracted into the closed shape union the
  builder dispatches over (`TypeExpr`).
* Recursive resolution, which Go guards with the `resolving` set, is
  additionally bounded by an explicit fuel parameter; at fuel zero the
  unknown-leaf fallback of the source is returned.
* File-system effects (`filepath.Abs`) inside `Options.Normalize` are
  modelled as the identity on the stored path strings; the external
  declaration source (`getExternalStructAST` etc.) is an environment
  function of the builder.
-/

namespace Apimodelgen

/-- Occurrence scan behind `strContains`. -/
def containsAux (pat : List Char) : List Char → Bool
  | [] => pat.isEmpty
  | c :: rest => pat.isPrefixOf (c :: rest) || containsAux pat rest

/-- Go `strings.Contains s sub` (substring containment). -/
def strContains (s sub : String) : Bool :=
  containsAux sub.toList s.toList

/-- Go `strings.HasSuffix s suffix`. -/
def hasSuffix (s suffix : String) : Bool :=
  List.isPrefixOf suffix.toList.reverse s.toList.reverse

/-- Go `strings.TrimSuffix s suffix`. -/
def trimSuffix (s suffix : String) : String :=
  if hasSuffix s suffix then
    String.mk (s.toList.take (s.toList.length - suffix.toList.length))
  else s

/-- Go `strings.ToLower` (ASCII-faithful). -/
def strToLower (s : String) : String :=
  String.mk (s.toList.map Char.toLower)

/-- Go `strings.TrimSpace` (ASCII whitespace). -/
def strTrim (s : String) : String :=
  String.mk (((s.toList.dropWhile Char.isWhitespace).reverse.dropWhile
    Char.isWhitespace).reverse)

/-- Go `strings.EqualFold` (ASCII-faithful case-insensitive equality). -/
def equalFold (a b : String) : Bool :=
  strToLower a == strToLower b

/-- The splitter loop behind `strSplitOn`, structurally bounded by fuel
(one unit per consumed character suffices). -/
def splitCharsAux (sep : List Char) : Nat → List Char → List Char → List (List Char)
  | 0, l, acc => [acc.reverse ++ l]
  | fuel + 1, l, acc =>
    match l with
    | [] => [acc.reverse]
    | c :: rest =>
      if sep.isPrefixOf (c :: rest) then
        acc.reverse :: splitCharsAux sep fuel ((c :: rest).drop sep.length) []
      else
        splitCharsAux sep fuel rest (c :: acc)

/-- Go `strings.Split s sep` for a non-empty separator (every use in the
source passes a literal `";"` or `":"`); leftmost non-overlapping splits,
empty parts preserved. -/
def strSplitOn (s sep : String) : List String :=
  if sep = "" then [s]
  else (splitCharsAux sep.toList (s.toList.length + 1) s.toList []).map String.mk

/-- A struct tag, the association-list view of a `reflect.StructTag`. -/
abbrev Tag := List (String × String)

/-- `reflect.StructTag.Lookup`. -/
def Tag.lookup (t : Tag) (key : String) : Option String :=
  match t with
  | [] => none
  | (k, v) :: rest => if k = key then some v else Tag.lookup rest key

/-- `reflect.StructTag.Get`: lookup defaulting to the empty string. -/
def Tag.get (t : Tag) (key : String) : String :=
  (Tag.lookup t key).getD ""

/-- Go `delete(tagMap, key)` on the association-list view. -/
def Tag.eraseKey (t : Tag) (key : String) : Tag :=
  t.filter (fun p => p.1 ≠ key)

/-- The closed union of type-expression shapes `Builder.resolveTypeExpr`
dispatches over (`*ast.Ident`, `*ast.StarExpr`, `*ast.ArrayType`,
`*ast.IndexExpr`, `*ast.IndexListExpr`, `*ast.SelectorExpr`, default). -/
inductive TypeExpr where
  | ident (name : String)
  | star (x : TypeExpr)
  | array (elt : TypeExpr)
  | idx (x arg : TypeExpr)
  | idxList (x : TypeExpr) (args : List TypeExpr)
  | selector (pkgAlias name : String)
  | other
deriving Repr

/-- `model.Kind` from `internal/model/model.go`. -/
inductive Kind where
  | invalid
  | builtin
  | struct
  | alias
  | pointer
  | slice
deriving DecidableEq, Repr

/-- `model.RawField`.  `tagLit = none` models a nil `*ast.BasicLit`. -/
structure RawField where
  name : String
  comment : String
  typeExpr : TypeExpr
  tagLit : Option Tag
  isEmbedded : Bool

/-- `model.RawStruct`. -/
structure RawStruct where
  name : String
  aliasName : Option String
  aliasPtr : Option Bool
  comment : String
  typeParams : List String
  fields : List RawField
  pkgPath : String

/-- `parser.TagFilter`. -/
structure TagFilter where
  key : String
  value : String

/-- `parser.Options` (the fields the core consumes). -/
structure Options where
  inDir : String := ""
  outDir : String := ""
  outFile : String := ""
  suffix : String := ""
  patchSuffix : String := ""
  keepORMTags : Bool := false
  flattenEmbedded : Bool := false
  includeEmbedded : Bool := false
  excludeDeprecated : Bool := false
  excludeTypes : List String := []
  excludeByTags : List TagFilter := []

/-- The field record of `model.WorkingField`, parametrized by the type of
its `Type` attribute so it can be nested inside `WorkingType`. -/
structure WFieldP (τ : Type) where
  name : String
  rawName : String
  comment : String
  embedded : Bool
  type : τ
  tag : Tag
  rawTag : Tag
  omitFlag : Bool
  deprecated : Bool

/-- Replace the `type` attribute of a field record. -/
def WFieldP.withType {τ : Type} (f : WFieldP τ) (t : τ) : WFieldP τ :=
  { f with type := t }

/-- `model.WorkingType`: the resolved-type IR node. -/
inductive WorkingType where
  | mk (name pkgPath : String) (kind : Kind) (underlying : Option WorkingType)
       (fields : List (WFieldP WorkingType)) (comment : String)
       (typeParams : List String)
       (isExternal isDeprecated omitFlag embedded nameResolved aliasApplied : Bool)

/-- `model.WorkingField`. -/
abbrev WorkingField := WFieldP WorkingType

namespace WorkingType

def name : WorkingType → String
  | .mk n _ _ _ _ _ _ _ _ _ _ _ _ => n

def pkgPath : WorkingType → String
  | .mk _ p _ _ _ _ _ _ _ _ _ _ _ => p

def kind : WorkingType → Kind
  | .mk _ _ k _ _ _ _ _ _ _ _ _ _ => k

def underlying : WorkingType → Option WorkingType
  | .mk _ _ _ u _ _ _ _ _ _ _ _ _ => u

def fields : WorkingType → List WorkingField
  | .mk _ _ _ _ fs _ _ _ _ _ _ _ _ => fs

def comment : WorkingType → String
  | .mk _ _ _ _ _ c _ _ _ _ _ _ _ => c

def typeParams : WorkingType → List String
  | .mk _ _ _ _ _ _ tp _ _ _ _ _ _ => tp

def isExternal : WorkingType → Bool
  | .mk _ _ _ _ _ _ _ e _ _ _ _ _ => e

def isDeprecated : WorkingType → Bool
  | .mk _ _ _ _ _ _ _ _ d _ _ _ _ => d

def omitFlag : WorkingType → Bool
  | .mk _ _ _ _ _ _ _ _ _ o _ _ _ => o

def embedded : WorkingType → Bool
  | .mk _ _ _ _ _ _ _ _ _ _ e _ _ => e

def nameResolved : WorkingType → Bool
  | .mk _ _ _ _ _ _ _ _ _ _ _ r _ => r

def aliasApplied : WorkingType → Bool
  | .mk _ _ _ _ _ _ _ _ _ _ _ _ a => a

/-- Replace the fields list (Go `wt.Fields = out`). -/
def withFields (wt : WorkingType) (fs : List WorkingField) : WorkingType :=
  match wt with
  | .mk n p k u _ c tp e d o em nr aa => .mk n p k u fs c tp e d o em nr aa

/-- Set the `Omit` flag (Go `wt.Omit = true`). -/
def setOmit (wt : WorkingType) : WorkingType :=
  match wt with
  | .mk n p k u fs c tp e d _ em nr aa => .mk n p k u fs c tp e d true em nr aa

/-- Set name and the `NameResolved` flag (used by `applySuffix`). -/
def withNameResolved (wt : WorkingType) (n' : String) : WorkingType :=
  match wt with
  | .mk _ p k u fs c tp e d o em _ aa => .mk n' p k u fs c tp e d o em true aa

/-- Turn a shell into an alias node (Go `wt.Kind = KindAlias;
wt.Underlying = ...`). -/
def toAlias (wt : WorkingType) (u : Option WorkingType) : WorkingType :=
  match wt with
  | .mk n p _ _ fs c tp e d o em nr aa => .mk n p Kind.alias u fs c tp e d o em nr aa

end WorkingType

/-- Anonymous leaf-like `WorkingType` values built inline by the Go code
(`&model.WorkingType{Name: ..., Kind: ...}`). -/
def leafWT (n : String) (k : Kind) : WorkingType :=
  .mk n "" k none [] "" [] false false false false false false

/-- `&model.WorkingType{Kind: ..., Underlying: elem}` wrapper nodes. -/
def wrapWT (k : Kind) (elem : WorkingType) : WorkingType :=
  .mk "" "" k (some elem) [] "" [] false false false false false false

/-- The `UNKNOWN` builtin fallback leaf. -/
def unknownWT : WorkingType := leafWT "UNKNOWN" Kind.builtin

/-- `RawStructs.Find`: first raw struct with the given name. -/
def RawStructs.find (raws : List RawStruct) (name : String) : Option RawStruct :=
  raws.find? (fun s => s.name == name)

/-- `parser.ExternalAlias` (generic alias to an external type). -/
structure ExternalAlias where
  pkgPath : String
  typeName : String
  typeArgs : List TypeExpr

/-- The `Builder` environment: options, raw structs, imports
(alias ↦ import path), plus the external declaration source.  `extStructs`
stands for `Parser.getExternalStructAST` composed with the AST→RawField
extraction (`rawFieldsFromAST`/`rawFieldsFromExternalAST`): it yields the
raw field list of an external struct, or `none` when the lookup fails. -/
structure Builder where
  opts : Options
  raws : List RawStruct
  imports : List (String × String)
  externalAliases : List (String × ExternalAlias)
  extStructs : String → String → Option (List RawField)

/-- Mutable builder state: the `byName` identity table and the
`resolving` re-entrancy guard set. -/
structure BState where
  byName : List (String × WorkingType)
  resolving : List String

/-- `b.byName[name]` lookup. -/
def BState.lookup (s : BState) (name : String) : Option WorkingType :=
  (s.byName.find? (fun p => p.1 == name)).map (fun p => p.2)

/-- `b.byName[name] = wt` (update in place, else append). -/
def BState.store (s : BState) (name : String) (wt : WorkingType) : BState :=
  if (s.byName.find? (fun p => p.1 == name)).isSome then
    { s with byName := s.byName.map (fun p => if p.1 == name then (name, wt) else p) }
  else
    { s with byName := s.byName ++ [(name, wt)] }

/-- `builtinIdents` from `builder.go`. -/
def builtinIdents : List String :=
  ["string", "bool", "byte", "rune", "int", "int8", "int16",
   "int32", "int64", "uint", "uint8", "uint16", "uint32", "uint64",
   "float32", "float64", "complex64", "complex128", "error"]

/-- `Builder.ensureWorkingType`: return the existing shell or create one
(kind defaulted to Struct), copying package path, comment and type
parameters from the raw declaration when present. -/
def ensureWorkingType (b : Builder) (s : BState) (name : String) :
    BState × WorkingType :=
  match s.lookup name with
  | some t => (s, t)
  | none =>
    let wt : WorkingType :=
      match RawStructs.find b.raws name with
      | some raw =>
        .mk name raw.pkgPath Kind.struct none [] raw.comment raw.typeParams
          false false false false false false
      | none =>
        .mk name "" Kind.struct none [] "" [] false false false false false false
    ({ s with byName := s.byName ++ [(name, wt)] }, wt)

/-- `Builder.shouldOmitFieldByTag`: `Options.ExcludeByTags` for a field
(key lookup plus exact value match within the semicolon-delimited list). -/
def shouldOmitFieldByTag (opts : Options) (rf : RawField) : Bool :=
  match rf.tagLit with
  | none => false
  | some tagRaw =>
    if opts.excludeByTags.isEmpty then false
    else if tagRaw.isEmpty then false
    else
      opts.excludeByTags.any fun f =>
        match Tag.lookup tagRaw f.key with
        | some v => (strSplitOn v ";").contains f.value
        | none => false

/-- `parseStructTagLit`: the tag literal's association-list view (already
the representation of `Tag`; a nil literal parses to the empty map). -/
def parseStructTagLit (lit : Option Tag) : Tag :=
  lit.getD []

mutual

/-- `substituteTypeParam` (AST-level generic parameter substitution).
The Go `*ast.SelectorExpr` arm substitutes into the package qualifier,
which is never a type parameter, so it is a no-op here; the Go
`*ast.MapType` arm has no counterpart because the builder's shape union
has no map shape. -/
def substituteTypeParam : TypeExpr → String → TypeExpr → TypeExpr
  | .ident n, p, arg => if n = p then arg else .ident n
  | .star x, p, arg => .star (substituteTypeParam x p arg)
  | .array e, p, arg => .array (substituteTypeParam e p arg)
  | .idx x i, p, arg => .idx (substituteTypeParam x p arg) (substituteTypeParam i p arg)
  | .idxList x es, p, arg =>
    .idxList (substituteTypeParam x p arg) (substituteTypeParamList es p arg)
  | .selector pa n, _, _ => .selector pa n
  | .other, _, _ => .other

/-- List version of `substituteTypeParam` for generic argument lists. -/
def substituteTypeParamList : List TypeExpr → String → TypeExpr → List TypeExpr
  | [], _, _ => []
  | e :: rest, p, arg =>
    substituteTypeParam e p arg :: substituteTypeParamList rest p arg

end

/-- Positional lookup of a generic parameter name, mirroring the
`for i, p := range params { if wt.Name == p { return args[i] } }` loop
(parameter and argument lists have equal length at every call site). -/
def lookupParam (params : List String) (args : List WorkingType) (n : String) :
    Option WorkingType :=
  match params, args with
  | p :: ps, a :: rest => if n = p then some a else lookupParam ps rest n
  | _, _ => none

/-- `Builder.substituteParamsInWT`: rewrite a working type by replacing
leaves named after a generic parameter; pointer/slice wrappers are rebuilt
around the substituted element, everything else passes through. -/
def substituteParamsInWT : WorkingType → List String → List WorkingType → WorkingType
  | .mk n p k u fs c tp e d o em nr aa, params, args =>
    match lookupParam params args n with
    | some a => a
    | none =>
      match k, u with
      | Kind.pointer, some uu =>
        .mk "" "" Kind.pointer (some (substituteParamsInWT uu params args))
          [] "" [] false false false false false false
      | Kind.pointer, none =>
        .mk "" "" Kind.pointer none [] "" [] false false false false false false
      | Kind.slice, some uu =>
        .mk "" "" Kind.slice (some (substituteParamsInWT uu params args))
          [] "" [] false false false false false false
      | Kind.slice, none =>
        .mk "" "" Kind.slice none [] "" [] false false false false false false
      | _, _ => .mk n p k u fs c tp e d o em nr aa

/-- `Builder.resolveSelector`: map a qualified reference to
(import path, type name) through the imports table.  An empty package
alias models the non-identifier qualifier case. -/
def resolveSelector (b : Builder) (pkgAlias typeName : String) : String × String :=
  if pkgAlias = "" then ("", typeName)
  else
    match b.imports.find? (fun m => m.1 == pkgAlias) with
    | some m => (m.2, typeName)
    | none => ("", typeName)

/-- `Builder.loadExternalRawStruct`: load an external struct's raw
declaration through the declaration source; `none` when the location or
name is empty or the type does not exist. -/
def loadExternalRawStruct (b : Builder) (pkgPath typeName : String) :
    Option RawStruct :=
  if pkgPath = "" ∨ typeName = "" then none
  else
    match b.extStructs pkgPath typeName with
    | none => none
    | some fs => some ⟨typeName, none, none, "", [], fs, pkgPath⟩

/-- The tail of `Builder.instantiateGeneric` after the eager population
step: the impossibility check returning the base unchanged, then the
clone with per-field parameter substitution. -/
def instantiateGenericTail (s1 : BState) (base : WorkingType)
    (args : List WorkingType) : BState × WorkingType :=
  if base.isExternal || !(base.kind == Kind.struct) || base.fields.isEmpty then
    (s1, base)
  else
    let paramNames :=
      if base.typeParams.length == args.length then base.typeParams
      else (List.range args.length).map (fun i => "T" ++ toString i)
    let inst : WorkingType :=
      .mk base.name base.pkgPath Kind.struct none
        (base.fields.map fun f => { f with type := substituteParamsInWT f.type paramNames args })
        base.comment [] base.isExternal false false false false false
    (s1, inst)

mutual

/-- `Builder.populateFields`: fill in a shell's fields (or alias target),
guarded by the `resolving` set; re-entry is skipped.  The extra fuel
argument only bounds recursion for totality. -/
def populateFields (fuel : Nat) (b : Builder) (s : BState) (name : String) :
    BState :=
  match fuel with
  | 0 => s
  | fuel + 1 =>
    if s.resolving.contains name then s
    else
      match s.lookup name with
      | none => s
      | some wt =>
        let s1 := { s with resolving := name :: s.resolving }
        let s2 :=
          match RawStructs.find b.raws name with
          | none => s1
          | some raw =>
            match raw.aliasName with
            | some an =>
              let (s', u) := resolveTypeExprAlias fuel b s1 an raw.aliasPtr
              s'.store name (wt.toAlias (some u))
            | none =>
              let (s', fs) := resolveRawFieldList fuel b s1 raw.fields
              s'.store name (wt.withFields (wt.fields ++ fs))
        { s2 with resolving := s2.resolving.erase name }

/-- The per-struct loop of `populateFields`: resolve each raw field and
append the non-empty results. -/
def resolveRawFieldList (fuel : Nat) (b : Builder) (s : BState)
    (rfs : List RawField) : BState × List WorkingField :=
  match fuel with
  | 0 => (s, [])
  | fuel + 1 =>
    match rfs with
    | [] => (s, [])
    | rf :: rest =>
      let (s1, fs) := resolveRawField fuel b s rf
      let (s2, more) := resolveRawFieldList fuel b s1 rest
      (s2, fs ++ more)

/-- `Builder.resolveRawField`: apply the exclude-by-tag filter, compute
the working and raw tag maps (dropping the `gorm`/`db` keys unless
`KeepORMTags`), resolve the type expression, and mark deprecation.
The Go serialize-then-reparse of the tag map (`buildTagLiteral` then
`reflect.StructTag`) round-trips to the same association list. -/
def resolveRawField (fuel : Nat) (b : Builder) (s : BState) (rf : RawField) :
    BState × List WorkingField :=
  match fuel with
  | 0 => (s, [])
  | fuel + 1 =>
    if shouldOmitFieldByTag b.opts rf then (s, [])
    else
      let tagMap := parseStructTagLit rf.tagLit
      let rawTag := tagMap
      let tag :=
        if b.opts.keepORMTags then tagMap
        else Tag.eraseKey (Tag.eraseKey tagMap "gorm") "db"
      let (s1, t) := resolveTypeExpr fuel b s rf.typeExpr
      let deprecated :=
        b.opts.excludeDeprecated &&
          (strContains rf.comment "Deprecated" || strContains rf.comment "deprecated")
      (s1, [{ name := rf.name, rawName := rf.name, comment := rf.comment,
              embedded := rf.isEmbedded, type := t, tag := tag,
              rawTag := rawTag, omitFlag := false, deprecated := deprecated }])

/-- `Builder.resolveTypeExpr`: dispatch over the expression shape. -/
def resolveTypeExpr (fuel : Nat) (b : Builder) (s : BState) (e : TypeExpr) :
    BState × WorkingType :=
  match fuel with
  | 0 => (s, unknownWT)
  | fuel + 1 =>
    match e with
    | .ident n => resolveIdentType fuel b s n
    | .star x =>
      let (s1, elem) := resolveTypeExpr fuel b s x
      (s1, wrapWT Kind.pointer elem)
    | .array elt =>
      let (s1, elem) := resolveTypeExpr fuel b s elt
      (s1, wrapWT Kind.slice elem)
    | .idx x i =>
      let (s1, baseType) := resolveTypeExpr fuel b s x
      let (s2, argWT) := resolveTypeExpr fuel b s1 i
      instantiateGeneric fuel b s2 baseType [argWT]
    | .idxList x es =>
      let (s1, baseType) := resolveTypeExpr fuel b s x
      let (s2, args) := resolveTypeExprList fuel b s1 es
      instantiateGeneric fuel b s2 baseType args
    | .selector pa n =>
      let (pkgPath, typeName) := resolveSelector b pa n
      resolveExternalType fuel b s pkgPath typeName
    | .other => (s, unknownWT)

/-- Resolve a list of generic-argument expressions in order. -/
def resolveTypeExprList (fuel : Nat) (b : Builder) (s : BState)
    (es : List TypeExpr) : BState × List WorkingType :=
  match fuel with
  | 0 => (s, [])
  | fuel + 1 =>
    match es with
    | [] => (s, [])
    | e :: rest =>
      let (s1, t) := resolveTypeExpr fuel b s e
      let (s2, ts) := resolveTypeExprList fuel b s1 rest
      (s2, t :: ts)

/-- `Builder.resolveIdentType`: builtins, local structs, external generic
aliases, import-wide external probe, then the unknown-leaf fallback. -/
def resolveIdentType (fuel : Nat) (b : Builder) (s : BState) (n : String) :
    BState × WorkingType :=
  match fuel with
  | 0 => (s, unknownWT)
  | fuel + 1 =>
    if builtinIdents.contains n then (s, leafWT n Kind.builtin)
    else if (RawStructs.find b.raws n).isSome then ensureWorkingType b s n
    else
      match b.externalAliases.find? (fun p => p.1 == n) with
      | some p => buildExternalAliasType fuel b s n p.2
      | none =>
        match b.imports.find? (fun m => (b.extStructs m.2 n).isSome) with
        | some m => resolveExternalType fuel b s m.2 n
        | none => (s, leafWT n Kind.builtin)

/-- `Builder.buildExternalAliasType`: expand an external generic alias;
with exactly one type argument the external parameter is assumed to be
named `T` and literally substituted into the raw field expressions. -/
def buildExternalAliasType (fuel : Nat) (b : Builder) (s : BState)
    (aliasName : String) (ea : ExternalAlias) : BState × WorkingType :=
  let wt0 : WorkingType :=
    .mk aliasName ea.pkgPath Kind.struct none [] "" [] true false false false false false
  match fuel with
  | 0 => (s, wt0)
  | fuel + 1 =>
    match b.extStructs ea.pkgPath ea.typeName with
    | none => (s, wt0)
    | some rawFields =>
      let rawFields :=
        match ea.typeArgs with
        | [arg] => rawFields.map fun rf =>
            { rf with typeExpr := substituteTypeParam rf.typeExpr "T" arg }
        | _ => rawFields
      let (s1, fs) := resolveRawFieldList fuel b s rawFields
      (s1, wt0.withFields fs)

/-- `Builder.resolveExternalType`: opaque external struct leaf, with
fields attached when the declaration source can load them. -/
def resolveExternalType (fuel : Nat) (b : Builder) (s : BState)
    (pkgPath typeName : String) : BState × WorkingType :=
  let tn := if typeName = "" then "UNKNOWN" else typeName
  let wt0 : WorkingType :=
    .mk tn pkgPath Kind.struct none [] "" [] true false false false false false
  match fuel with
  | 0 => (s, wt0)
  | fuel + 1 =>
    match loadExternalRawStruct b pkgPath tn with
    | none => (s, wt0)
    | some raw =>
      let (s1, fs) := resolveRawFieldList fuel b s raw.fields
      (s1, wt0.withFields fs)

/-- `Builder.resolveTypeExprAlias`: the slice-alias underlying type
(`[]T` or `[]*T`).  The external-load branch passes an empty location and
is therefore dead in the source; it is kept verbatim. -/
def resolveTypeExprAlias (fuel : Nat) (b : Builder) (s : BState)
    (aliasName : String) (aliasPtr : Option Bool) : BState × WorkingType :=
  match fuel with
  | 0 => (s, unknownWT)
  | fuel + 1 =>
    let (s1, elem) :=
      match s.lookup aliasName with
      | some e => (s, e)
      | none =>
        match loadExternalRawStruct b "" aliasName with
        | some raw =>
          let (s', shell) := ensureWorkingType b s aliasName
          let (s'', fs) := resolveRawFieldList fuel b s' raw.fields
          let e := shell.withFields (shell.fields ++ fs)
          (s''.store aliasName e, e)
        | none => (s, leafWT aliasName Kind.struct)
    match aliasPtr with
    | some true => (s1, wrapWT Kind.slice (wrapWT Kind.pointer elem))
    | _ => (s1, wrapWT Kind.slice elem)

/-- `Builder.instantiateGeneric`: apply type arguments to a generic base.
An alias base unwraps to its underlying struct; a not-yet-populated local
struct base is populated eagerly; external/non-struct/field-less bases are
returned unchanged as opaque leaves (never an error).  On a declared-
parameter/argument count mismatch, synthetic positional names `T0`, `T1`,
… are used instead of failing.  The part after the eager population step
lives in `instantiateGenericTail`. -/
def instantiateGeneric (fuel : Nat) (b : Builder) (s : BState)
    (base0 : WorkingType) (args : List WorkingType) : BState × WorkingType :=
  let base1 :=
    if base0.kind == Kind.alias && base0.underlying.isSome then
      base0.underlying.getD base0
    else base0
  match fuel with
  | 0 => instantiateGenericTail s base1 args
  | fuel + 1 =>
    if !base1.isExternal && base1.kind == Kind.struct && base1.fields.isEmpty
        && (RawStructs.find b.raws base1.name).isSome then
      let s' := populateFields fuel b s base1.name
      instantiateGenericTail s' ((s'.lookup base1.name).getD base1) args
    else instantiateGenericTail s base1 args

end

/-! ## Transformation pipeline (`builder.go`, per-type passes) -/

/-- `Builder.isTagEmbedded`: well-known embedded/inline tag markers. -/
def isTagEmbedded (tag : Tag) : Bool :=
  if tag.isEmpty then false
  else
    let embeddedTags : List TagFilter :=
      [⟨"gorm", "embedded"⟩, ⟨"db", "embedded"⟩, ⟨"json", "inline"⟩,
       ⟨"yaml", "inline"⟩, ⟨"mapstructure", "squash"⟩]
    embeddedTags.any fun f =>
      match Tag.lookup tag f.key with
      | some v => (strSplitOn v ";").contains f.value
      | none => false

/-- `Builder.isTypeExcluded`: `Options.ExcludeTypes` entries compared
against the lowercased type name. -/
def isTypeExcluded (opts : Options) (name : String) : Bool :=
  if opts.excludeTypes.isEmpty || name = "" then false
  else
    let lower := strToLower name
    opts.excludeTypes.any (fun t => t == lower)

/-- `Builder.filterDeprecated`: omit a type whose own comment carries the
literal substrings `Deprecated` or `deprecated`, else drop
individually-marked fields; a no-op when `ExcludeDeprecated` is off. -/
def filterDeprecated (opts : Options) (wt : WorkingType) : WorkingType :=
  if !opts.excludeDeprecated then wt
  else if strContains wt.comment "Deprecated" || strContains wt.comment "deprecated" then
    wt.setOmit
  else
    wt.withFields (wt.fields.filter (fun f => !f.deprecated))

/-- The per-field body of the `flattenEmbedded` loop.  The
`IncludeEmbedded` arm is kept although the function's outer guard makes
it unreachable in the source. -/
def flattenEmbeddedField (opts : Options) (f : WorkingField) : List WorkingField :=
  if f.embedded then
    if opts.flattenEmbedded then
      if f.type.kind == Kind.struct && !f.type.fields.isEmpty then f.type.fields else []
    else if opts.includeEmbedded then
      f :: (if f.type.kind == Kind.struct && !f.type.fields.isEmpty then f.type.fields else [])
    else [f]
  else [f]

/-- `Builder.flattenEmbedded`: flatten anonymous embedded fields when
`FlattenEmbedded` is set (the loop's appends are the concatenation of
the per-field contributions). -/
def flattenEmbedded (opts : Options) (wt : WorkingType) : WorkingType :=
  if !opts.flattenEmbedded then wt
  else if !(wt.kind == Kind.struct) then wt
  else wt.withFields (wt.fields.flatMap (flattenEmbeddedField opts))

/-- The per-field body of the `flattenTagEmbedded` loop. -/
def flattenTagEmbeddedField (opts : Options) (f : WorkingField) : List WorkingField :=
  let inline := isTagEmbedded f.rawTag
  if !inline || !(f.type.kind == Kind.struct) then [f]
  else if opts.flattenEmbedded then f.type.fields
  else if opts.includeEmbedded then f :: f.type.fields
  else [f]

/-- `Builder.flattenTagEmbedded`: inline fields based on tag markers. -/
def flattenTagEmbedded (opts : Options) (wt : WorkingType) : WorkingType :=
  if !(wt.kind == Kind.struct) then wt
  else wt.withFields (wt.fields.flatMap (flattenTagEmbeddedField opts))

/-- `Builder.applySuffix`: append the configured suffix once, marking the
type name-resolved; skipped when already resolved, when no suffix is
configured, or (name kept) when the name already ends with the suffix. -/
def applySuffix (opts : Options) (wt : WorkingType) : WorkingType :=
  if wt.nameResolved then wt
  else if opts.suffix = "" then wt
  else if hasSuffix wt.name opts.suffix then wt.withNameResolved wt.name
  else wt.withNameResolved (wt.name ++ opts.suffix)

/-- The seen-set loop of `dedupeFields`. -/
def dedupeFieldsAux (seen : List String) : List WorkingField → List WorkingField
  | [] => []
  | f :: rest =>
    if f.name = "" then f :: dedupeFieldsAux seen rest
    else if seen.contains f.name then dedupeFieldsAux seen rest
    else f :: dedupeFieldsAux (f.name :: seen) rest

/-- `Builder.dedupeFields`: drop repeated field names, keeping the first
occurrence; unnamed fields are preserved as-is. -/
def dedupeFields (wt : WorkingType) : WorkingType :=
  if !(wt.kind == Kind.struct) then wt
  else wt.withFields (dedupeFieldsAux [] wt.fields)

/-- `Builder.applyTransformations`: the ordered per-type passes — name
exclusion, deprecation filtering, structural and tag-driven embedding
flattening, suffixing, deduplication. -/
def applyTransformations (opts : Options) (wt : WorkingType) : WorkingType :=
  if wt.omitFlag then wt
  else if isTypeExcluded opts wt.name then wt.setOmit
  else
    let wt1 := filterDeprecated opts wt
    if wt1.omitFlag then wt1
    else dedupeFields (applySuffix opts (flattenTagEmbedded opts (flattenEmbedded opts wt1)))

/-- `Builder.BuildAll`: create shells, populate fields, apply the
transformations, return all non-omitted types (table iterated in
insertion order). -/
def buildAll (fuel : Nat) (b : Builder) : List WorkingType :=
  let s0 : BState := ⟨[], []⟩
  let s1 := b.raws.foldl (fun s raw => (ensureWorkingType b s raw.name).1) s0
  let s2 := (s1.byName.map Prod.fst).foldl (fun s n => populateFields fuel b s n) s1
  (s2.byName.map (fun p => applyTransformations b.opts p.2)).filter (fun wt => !wt.omitFlag)

/-! ## API mapper (`mapper.go`) -/

/-- `model.TypeRef`: the shape-only output reference tree. -/
inductive TypeRef where
  | mk (pkgPath name : String) (isPtr isSlice isEmbedded : Bool) (elem : Option TypeRef)

namespace TypeRef

def pkgPath : TypeRef → String
  | .mk p _ _ _ _ _ => p

def name : TypeRef → String
  | .mk _ n _ _ _ _ => n

def isPtr : TypeRef → Bool
  | .mk _ _ ip _ _ _ => ip

def isSlice : TypeRef → Bool
  | .mk _ _ _ isl _ _ => isl

def isEmbedded : TypeRef → Bool
  | .mk _ _ _ _ ie _ => ie

def elem : TypeRef → Option TypeRef
  | .mk _ _ _ _ _ e => e

/-- `tr.IsPtr = b` (in-place flag update, value-passing style). -/
def withIsPtr (t : TypeRef) (b : Bool) : TypeRef :=
  match t with
  | .mk p n _ isl ie e => .mk p n b isl ie e

end TypeRef

/-- `model.ApiField` (the `Type` pointer is always non-nil here). -/
structure ApiField where
  name : String
  type : TypeRef
  tag : Tag
  rawTag : Tag
  comment : String
  omitFlag : Bool
  isEmbedded : Bool

/-- `model.ApiStruct`; the `Imports` set is an insertion-ordered list. -/
structure ApiStruct where
  name : String
  aliasName : Option String
  aliasPtr : Option Bool
  comment : String
  fields : List ApiField
  imports : List String
  pkgName : String

/-- `ApiStructs.Find`. -/
def ApiStructs.find (apis : List ApiStruct) (name : String) : Option ApiStruct :=
  apis.find? (fun a => a.name == name)

/-- `workingTypeToTypeRef`: project a working type onto its output
reference shape (`nil` underlying projects to the `UNKNOWN` leaf). -/
def workingTypeToTypeRef : WorkingType → TypeRef
  | .mk n p k u _ _ _ _ _ _ _ _ _ =>
    match k, u with
    | Kind.pointer, some uu =>
      let inner := workingTypeToTypeRef uu
      .mk "" "" true false false (some (inner.withIsPtr false))
    | Kind.pointer, none =>
      .mk "" "" true false false (some (TypeRef.mk "" "UNKNOWN" false false false none))
    | Kind.slice, some uu =>
      .mk "" "" false true false (some (workingTypeToTypeRef uu))
    | Kind.slice, none =>
      .mk "" "" false true false (some (TypeRef.mk "" "UNKNOWN" false false false none))
    | Kind.struct, _ => .mk p n false false false none
    | Kind.builtin, _ => .mk p n false false false none
    | Kind.alias, _ => .mk p n false false false none
    | Kind.invalid, _ => .mk "" "UNKNOWN" false false false none

/-- `isExportedName`: nonempty and first character upper-case. -/
def isExportedName (name : String) : Bool :=
  match name.toList with
  | [] => false
  | c :: _ => c.isUpper

/-- `trackImportsFromTypeRef`: record the non-empty package paths of a
reference tree into the imports set. -/
def trackImportsFromTypeRef (imports : List String) : TypeRef → List String
  | .mk p _ _ _ _ e =>
    let imports := if p ≠ "" ∧ ¬ imports.contains p then imports ++ [p] else imports
    match e with
    | some t => trackImportsFromTypeRef imports t
    | none => imports

/-- `workingFieldToApiField`: embedded fields take the type name as the
field selector name. -/
def workingFieldToApiField (wf : WorkingField) : ApiField :=
  let af : ApiField :=
    { name := wf.name, type := workingTypeToTypeRef wf.type, tag := wf.tag,
      rawTag := wf.rawTag, comment := wf.comment, omitFlag := wf.omitFlag,
      isEmbedded := wf.embedded }
  if wf.embedded then { af with name := wf.type.name } else { af with name := wf.name }

/-- `workingStructToApiStruct`: keep exported fields (plus anonymous
embedded fields under `IncludeEmbedded`), projecting each type and
tracking imports. -/
def workingStructToApiStruct (wt : WorkingType) (opts : Options) : ApiStruct :=
  let start : ApiStruct :=
    { name := wt.name, aliasName := none, aliasPtr := none, comment := wt.comment,
      fields := [], imports := [], pkgName := "" }
  wt.fields.foldl (fun api wf =>
    if wf.omitFlag then api
    else if (wf.name == "" && wf.embedded && opts.includeEmbedded) || isExportedName wf.name then
      let tf := workingFieldToApiField wf
      { api with fields := api.fields ++ [tf],
                 imports := trackImportsFromTypeRef api.imports tf.type }
    else api) start

/-- `workingAliasToApiStruct`: emit an alias output struct only for the
collection-of-element / collection-of-pointer-to-element shapes. -/
def workingAliasToApiStruct (wt : WorkingType) : Option ApiStruct :=
  match wt.underlying with
  | none => none
  | some u =>
    if !(u.kind == Kind.slice) then none
    else
      match u.underlying with
      | none => none
      | some el =>
        let isPtr := el.kind == Kind.pointer && el.underlying.isSome
        let target := if isPtr then el.underlying.getD el else el
        some { name := wt.name, aliasName := some target.name, aliasPtr := some isPtr,
               comment := wt.comment, fields := [], imports := [], pkgName := "" }

/-- `ToApiStructs`: second-layer exclusions (generic templates, excluded
names with the suffix stripped, aliases to excluded targets), then
struct/alias emission. -/
def toApiStructs (types : List WorkingType) (opts : Options) : List ApiStruct :=
  types.foldl (fun out wt =>
    if wt.omitFlag then out
    else
      let skipExcluded :=
        if !opts.excludeTypes.isEmpty then
          if !wt.typeParams.isEmpty then true
          else
            let name :=
              if opts.suffix ≠ "" && hasSuffix wt.name opts.suffix then
                trimSuffix wt.name opts.suffix
              else wt.name
            opts.excludeTypes.any (fun ex => equalFold ex name)
        else false
      if skipExcluded then out
      else
        let skipAliasTarget :=
          match wt.kind == Kind.alias, wt.underlying with
          | true, some u =>
            let baseName :=
              if opts.suffix ≠ "" && hasSuffix u.name opts.suffix then
                trimSuffix u.name opts.suffix
              else u.name
            opts.excludeTypes.any (fun ex => equalFold ex baseName)
          | _, _ => false
        if skipAliasTarget then out
        else
          match wt.kind with
          | Kind.struct => out ++ [workingStructToApiStruct wt opts]
          | Kind.alias =>
            match workingAliasToApiStruct wt with
            | some a => out ++ [a]
            | none => out
          | _ => out) []

/-! ## Patch synthesis (`mapper.go`) -/

/-- The `Parser`-side context patch synthesis reads: options, the working
model (the Go methods recompute it via `BuildWorkingModel`; here it is
passed in already built), and the raw structs. -/
structure PatchCtx where
  opts : Options
  wts : List WorkingType
  raws : List RawStruct

/-- `Parser.resolveName`: append the DTO suffix when missing. -/
def resolveName (opts : Options) (name : String) : String :=
  if opts.suffix ≠ "" && !(hasSuffix name opts.suffix) then name ++ opts.suffix
  else name

/-- `Parser.isGormReadOnly`: the fixed ORM read-only convention — a
`gorm` tag part equal to `->`, `<-:create` or `primaryKey`. -/
def isGormReadOnly (tag : Tag) : Bool :=
  if tag.isEmpty then false
  else
    let raw := Tag.get tag "gorm"
    if raw = "" then false
    else
      (strSplitOn raw ";").any fun part =>
        let part := strTrim part
        part == "->" || part == "<-:create" || part == "primaryKey"

/-- `pointerizeTypeRef`: wrap the reference in exactly one new pointer
level (the three-state patch semantics). -/
def pointerizeTypeRef (t : TypeRef) : TypeRef :=
  .mk "" "" true false false (some t)

/-- `cloneTypeRef` (deep copy; the identity under value passing). -/
def cloneTypeRef (t : TypeRef) : TypeRef := t

/-- The leaf-walk of `pointerizePatchStructType`: append the patch suffix
to the leaf name when not already present. -/
def appendPatchSuffixAtLeaf (ps : String) : TypeRef → TypeRef
  | .mk p n ip isl ie none =>
    if hasSuffix n ps then .mk p n ip isl ie none
    else .mk p (n ++ ps) ip isl ie none
  | .mk p n ip isl ie (some e) => .mk p n ip isl ie (some (appendPatchSuffixAtLeaf ps e))

/-- `Parser.pointerizePatchStructType`: pointer to the Patch variant of
the referenced type (`Foo → *FooPatch`), wrapper metadata preserved. -/
def pointerizePatchStructType (opts : Options) (t : TypeRef) : TypeRef :=
  pointerizeTypeRef (appendPatchSuffixAtLeaf opts.patchSuffix (cloneTypeRef t))

/-- `Parser.resolveAliasSliceElem`: the element reference when the name
refers to an alias working type of shape alias → slice → elem. -/
def resolveAliasSliceElem (ctx : PatchCtx) (t : TypeRef) : Option TypeRef :=
  if t.name = "" then none
  else
    ctx.wts.findSome? fun wt =>
      if wt.name == t.name && wt.kind == Kind.alias then
        match wt.underlying with
        | some u =>
          if u.kind == Kind.slice then
            match u.underlying with
            | some el => some (workingTypeToTypeRef el)
            | none => none
          else none
        | none => none
      else none

/-- The `*PatchSlice[...]` construction of `buildPatchSliceFieldType`
(its pointer-ness-preserving tail): the element is named
`<DTO-resolved element name><PatchSuffix>` and is itself a pointer
exactly when the given base element is. -/
def patchSliceRefOf (opts : Options) (be : TypeRef) : TypeRef :=
  let elemPtr := be.isPtr
  let underlying := if be.isPtr && be.elem.isSome then be.elem.getD be else be
  let elemName0 := underlying.name
  let elemName :=
    if opts.suffix ≠ "" && !(hasSuffix elemName0 opts.suffix) then
      resolveName opts elemName0
    else elemName0
  let elemPatchName := elemName ++ opts.patchSuffix
  let elemRef : TypeRef :=
    if elemPtr then
      .mk "" elemPatchName true false false
        (some (.mk "" elemPatchName false false false none))
    else .mk "" elemPatchName false false false none
  .mk "" "PatchSlice" true false false (some elemRef)

/-- `Parser.buildPatchSliceFieldType`: collections (and alias-resolved
collections) become `*PatchSlice[ElemPatch]`; everything else is
pointerized.  In the raw-declaration fallback only the alias element
name is read (`*raw.Alias`); the declared pointer flag is not. -/
def buildPatchSliceFieldType (ctx : PatchCtx) (t : TypeRef) : TypeRef :=
  let baseElem : Option TypeRef :=
    if t.isSlice && t.elem.isSome then t.elem
    else if !t.isSlice then
      match resolveAliasSliceElem ctx t with
      | some aliasElem => some aliasElem
      | none =>
        match RawStructs.find ctx.raws t.name with
        | some raw =>
          match raw.aliasName with
          | some an => some (TypeRef.mk "" an false false false none)
          | none => none
        | none => none
    else none
  match baseElem with
  | none => pointerizeTypeRef t
  | some be => patchSliceRefOf ctx.opts be

/-- The per-field type rule of `Parser.buildPatchStructs` (the branch at
its loop body): read-only/create-only/primary-key fields keep their type
unchanged; embedded fields point at the Patch variant; all others go
through the general patch typing. -/
def patchFieldType (ctx : PatchCtx) (f : ApiField) : TypeRef :=
  if isGormReadOnly f.rawTag then f.type
  else if f.isEmbedded then pointerizePatchStructType ctx.opts f.type
  else buildPatchSliceFieldType ctx f.type

/-- `Parser.buildPatchStructs`: synthesize `<Name><PatchSuffix>` siblings
for each base DTO struct.  The source's `ExcludeTypes` check inside this
function is a no-op (its `continue` targets the inner loop), and the
synthesized fields leave `RawTag` unset, both modelled verbatim. -/
def buildPatchStructs (ctx : PatchCtx) (apiStructs : List ApiStruct) : List ApiStruct :=
  let patchSuffix := if ctx.opts.patchSuffix = "" then "Patch" else ctx.opts.patchSuffix
  let baseStructs := apiStructs.filter fun api =>
    api.aliasName.isNone && !(hasSuffix api.name patchSuffix)
  baseStructs.foldl (fun acc base =>
    let patchName := base.name ++ patchSuffix
    if (ApiStructs.find acc patchName).isSome then acc
    else if base.fields.isEmpty then acc
    else if ctx.opts.excludeDeprecated && strContains (strToLower base.comment) "deprecated" then
      acc
    else
      let built := base.fields.foldl
        (fun (st : List ApiField × List String) f =>
          if f.omitFlag then st
          else
            let pf : ApiField :=
              { name := f.name, type := patchFieldType ctx f, tag := f.tag,
                rawTag := [], comment := f.comment, omitFlag := false,
                isEmbedded := f.isEmbedded }
            (st.1 ++ [pf], trackImportsFromTypeRef st.2 pf.type)) ([], [])
      acc ++ [{ name := patchName, aliasName := none, aliasPtr := none,
                comment := base.comment, fields := built.1, imports := built.2,
                pkgName := base.pkgName }]) apiStructs

/-! ## Option normalization (`pkg` parser options) -/

/-- The exclude-by-tag string parsing loop of `Options.Normalize`
(`strings.Split(s, ":")` then `TagFilter{sp[0], sp[1]}`); a colon-less
string indexes out of range, a Go panic modelled as `Except.error`. -/
def parseExcludeByTagStrings (init : List TagFilter) (strs : List String) :
    Except String (List TagFilter) :=
  strs.foldlM (fun (acc : List TagFilter) s =>
    match strSplitOn s ":" with
    | k :: v :: _ => Except.ok (acc ++ [TagFilter.mk k v])
    | _ => Except.error "index out of range") init

/-- `Options.Normalize`.  A Go panic is modelled as `Except.error`; the
`filepath.Abs` calls are filesystem effects modelled as the identity on
the stored path strings. -/
def Options.normalize (o : Options) (excludeByTagStrings : List String) :
    Except String Options :=
  match parseExcludeByTagStrings o.excludeByTags excludeByTagStrings with
  | .error e => .error e
  | .ok filters =>
    if o.flattenEmbedded == o.includeEmbedded then
      .error "FlattenEmbedded and IncludeEmbedded are mutually exclusive"
    else
      let outDir := if o.outDir.length = 0 then "dto" else o.outDir
      let outFile := if o.outFile.length = 0 then "api_gen.go" else o.outFile
      let patchSuffix := if o.patchSuffix = "" then "Patch" else o.patchSuffix
      .ok { o with excludeByTags := filters, outDir := outDir,
                   outFile := outFile, patchSuffix := patchSuffix }

/-! ## Concrete instances used by counterexamples and witnesses -/

/-- The leaf name at the bottom of a reference's `Elem` chain. -/
def leafName : TypeRef → String
  | .mk _ n _ _ _ none => n
  | .mk _ _ _ _ _ (some e) => leafName e

/-- `type Widget struct { Name string }`. -/
def rawWidget : RawStruct :=
  { name := "Widget", aliasName := none, aliasPtr := none, comment := "",
    typeParams := [],
    fields := [⟨"Name", "", TypeExpr.ident "string", none, false⟩], pkgPath := "" }

/-- `type Widgets []*Widget` (or `[]Widget` when `p` is false). -/
def rawWidgets (p : Bool) : RawStruct :=
  { name := "Widgets", aliasName := some "Widget", aliasPtr := some p,
    comment := "", typeParams := [], fields := [], pkgPath := "" }

/-- Flatten-mode options with no type-name suffix configured. -/
def optsFl : Options := { flattenEmbedded := true, patchSuffix := "Patch" }

/-- Builder for the collection-alias round-trip scenario. -/
def bAlias (p : Bool) : Builder :=
  { opts := optsFl, raws := [rawWidget, rawWidgets p], imports := [],
    externalAliases := [], extStructs := fun _ _ => none }

/-- `type Holder struct { Items Widgets }`. -/
def rawHolder : RawStruct :=
  { name := "Holder", aliasName := none, aliasPtr := none, comment := "",
    typeParams := [],
    fields := [⟨"Items", "", TypeExpr.ident "Widgets", none, false⟩], pkgPath := "" }

/-- Options excluding the alias type `Widgets` by name, so that patch
synthesis reaches the raw-declaration alias fallback. -/
def optsExWidgets : Options :=
  { flattenEmbedded := true, patchSuffix := "Patch", excludeTypes := ["widgets"] }

def rawsFallback : List RawStruct := [rawWidget, rawWidgets true, rawHolder]

def bFallback : Builder :=
  { opts := optsExWidgets, raws := rawsFallback, imports := [],
    externalAliases := [], extStructs := fun _ _ => none }

def wtsFallback : List WorkingType := buildAll 10 bFallback

def patchedFallback : List ApiStruct :=
  buildPatchStructs ⟨optsExWidgets, wtsFallback, rawsFallback⟩
    (toApiStructs wtsFallback optsExWidgets)

/-- The synthesized `HolderPatch.Items` field type. -/
def holderPatchItemsType : Option TypeRef :=
  (ApiStructs.find patchedFallback "HolderPatch").bind fun a =>
    (a.fields.find? (fun f => f.name == "Items")).map (fun f => f.type)

/-- `type Base struct { ID string }`. -/
def rawBase : RawStruct :=
  { name := "Base", aliasName := none, aliasPtr := none, comment := "",
    typeParams := [],
    fields := [⟨"ID", "", TypeExpr.ident "string", none, false⟩], pkgPath := "" }

/-- `type Thing struct { Base; Name string }` (anonymous embedded field). -/
def rawThing : RawStruct :=
  { name := "Thing", aliasName := none, aliasPtr := none, comment := "",
    typeParams := [],
    fields := [⟨"Base", "", TypeExpr.ident "Base", none, true⟩,
               ⟨"Name", "", TypeExpr.ident "string", none, false⟩], pkgPath := "" }

/-- Include-embedded mode (embedded wrappers survive into the output). -/
def optsInc : Options := { includeEmbedded := true, patchSuffix := "Patch" }

def rawsEmb : List RawStruct := [rawBase, rawThing]

def bEmb : Builder :=
  { opts := optsInc, raws := rawsEmb, imports := [], externalAliases := [],
    extStructs := fun _ _ => none }

def wtsEmb : List WorkingType := buildAll 10 bEmb

def patchedEmb : List ApiStruct :=
  buildPatchStructs ⟨optsInc, wtsEmb, rawsEmb⟩ (toApiStructs wtsEmb optsInc)

/-- The base `Thing.Base` embedded field type (a scalar leaf). -/
def thingBaseFieldType : Option TypeRef :=
  (ApiStructs.find (toApiStructs wtsEmb optsInc) "Thing").bind fun a =>
    (a.fields.find? (fun f => f.name == "Base")).map (fun f => f.type)

/-- The synthesized `ThingPatch.Base` field type. -/
def thingPatchBaseType : Option TypeRef :=
  (ApiStructs.find patchedEmb "ThingPatch").bind fun a =>
    (a.fields.find? (fun f => f.name == "Base")).map (fun f => f.type)

/-- A type whose comment says deprecated only in capitals. -/
def wtDepCaps : WorkingType :=
  .mk "Legacy" "" Kind.struct none [] "DEPRECATED: do not use" []
    false false false false false false

/-- A type whose comment carries the literal `Deprecated`. -/
def wtDepLit : WorkingType :=
  .mk "Old" "" Kind.struct none [] "Deprecated: use New" []
    false false false false false false

def optsDep : Options := { flattenEmbedded := true, excludeDeprecated := true }

def optsNoDep : Options := { flattenEmbedded := true, excludeDeprecated := false }

/-- Exclude-types options whose configured entry is not lowercase. -/
def optsExCaps : Options := { flattenEmbedded := true, excludeTypes := ["Widget"] }

/-- A plain local struct shell named `Widget`. -/
def wtWidgetPlain : WorkingType :=
  .mk "Widget" "" Kind.struct none [] "" [] false false false false false false

/-- The leaf reference `Base` (the embedded field's scalar type). -/
def tBaseLeaf : TypeRef := .mk "" "Base" false false false none

/-- Pointer to the leaf `BasePatch` (what the synthesizer produces for
the embedded field). -/
def ptrBasePatch : TypeRef :=
  .mk "" "" true false false (some (.mk "" "BasePatch" false false false none))

/-- A primary-key field `ID uuid` (gorm-tagged immutable). -/
def roField : ApiField :=
  { name := "ID", type := .mk "" "uuid" false false false none, tag := [],
    rawTag := [("gorm", "primaryKey")], comment := "", omitFlag := false,
    isEmbedded := false }

/-- A plain scalar field `Age int`. -/
def ageField : ApiField :=
  { name := "Age", type := .mk "" "int" false false false none, tag := [],
    rawTag := [], comment := "", omitFlag := false, isEmbedded := false }

/-- A patch context with no working types and no raw structs. -/
def ctxEmptyP : PatchCtx := ⟨optsFl, [], []⟩

/-- A patch context whose raw structs declare the `Widgets` slice alias
(for the raw-declaration fallback path). -/
def ctxRawAlias : PatchCtx := ⟨optsFl, [], [rawWidgets true]⟩

/-- The leaf reference `Widgets` (the alias-typed field's projection). -/
def tWidgetsLeaf : TypeRef := .mk "" "Widgets" false false false none

/-- A direct `[]*Widget` field reference. -/
def tWidgetPtrSlice : TypeRef :=
  .mk "" "" false true false
    (some (.mk "" "Widget" true false false
      (some (.mk "" "Widget" false false false none))))

/-- A one-parameter generic struct `Box[T] struct { Value T }`. -/
def baseGen : WorkingType :=
  .mk "Box" "" Kind.struct none
    [⟨"Value", "Value", "", false, leafWT "T" Kind.builtin, [], [], false, false⟩]
    "" ["T"] false false false false false false

/-- A trivial builder (no declarations) for the `BuildAll` conjuncts. -/
def bEmpty : Builder :=
  { opts := optsFl, raws := [], imports := [], externalAliases := [],
    extStructs := fun _ _ => none }

/-! ## Helper lemmas -/

theorem hasSuffix_append (a s : String) : hasSuffix (a ++ s) s = true := by
  have h : s.toList.reverse <+: (a ++ s).toList.reverse := by
    simp only [String.toList, String.data_append, List.reverse_append]
    exact List.prefix_append _ _
  simp [hasSuffix, List.isPrefixOf_iff_prefix, h]

theorem WorkingType.setOmit_omitFlag (wt : WorkingType) :
    wt.setOmit.omitFlag = true := by
  cases wt; rfl

theorem WorkingType.setOmit_of_omitFlag (wt : WorkingType)
    (h : wt.omitFlag = true) : wt.setOmit = wt := by
  cases wt with
  | mk n p k u fs c tp e d o em nr aa =>
    simp only [WorkingType.omitFlag] at h
    simp [WorkingType.setOmit, h]

theorem WorkingType.withFields_fields (wt : WorkingType) (fs : List WorkingField) :
    (wt.withFields fs).fields = fs := by
  cases wt; rfl

theorem WorkingType.withNameResolved_name (wt : WorkingType) (n : String) :
    (wt.withNameResolved n).name = n := by
  cases wt; rfl

theorem WorkingType.withNameResolved_nameResolved (wt : WorkingType) (n : String) :
    (wt.withNameResolved n).nameResolved = true := by
  cases wt; rfl

/-- Every type `BuildAll` returns has a cleared `Omit` flag (the final
collection step filters omitted types out). -/
theorem mem_buildAll_not_omitted (fuel : Nat) (b : Builder) :
    ∀ u ∈ buildAll fuel b, u.omitFlag = false := by
  intro u hu
  unfold buildAll at hu
  have h2 := (List.mem_filter.mp hu).2
  simp at h2
  exact h2

/-! ## Claim theorems -/

/-- C3: a raw field whose metadata tag matches an active exclude-by-tag
rule (configured key present in the tag, configured value equal to one of
the semicolon-delimited parts of the tag value) is dropped before its
type expression is resolved: `resolveRawField` returns the builder state
unchanged (no node enters the type graph, no recursive resolution runs)
and contributes no working field, so the field appears in no base or
Patch output struct, for every configuration. -/
theorem resolveRawField_excluded_by_tag
    (fuel : Nat) (b : Builder) (s : BState) (rf : RawField) (tagRaw : Tag)
    (fl : TagFilter) (v : String)
    (hlit : rf.tagLit = some tagRaw)
    (hmem : fl ∈ b.opts.excludeByTags)
    (hlook : Tag.lookup tagRaw fl.key = some v)
    (hval : fl.value ∈ strSplitOn v ";") :
    resolveRawField fuel b s rf = (s, []) := by
  have hne : tagRaw ≠ [] := by
    intro h
    rw [h] at hlook
    simp [Tag.lookup] at hlook
  have h1 : b.opts.excludeByTags.isEmpty = false := by
    cases hlist : b.opts.excludeByTags with
    | nil => rw [hlist] at hmem; simp at hmem
    | cons a l => simp
  have h2 : tagRaw.isEmpty = false := by
    cases tagRaw with
    | nil => exact absurd rfl hne
    | cons a l => simp
  have hsh : shouldOmitFieldByTag b.opts rf = true := by
    unfold shouldOmitFieldByTag
    rw [hlit]
    simp only [h1, h2, Bool.false_eq_true, if_false]
    rw [List.any_eq_true]
    refine ⟨fl, hmem, ?_⟩
    rw [hlook]
    simpa using hval
  cases fuel with
  | zero => rfl
  | succ n => simp [resolveRawField, hsh]

/-- C3 witness: a concrete `json:"-"` field under an active
`json:-` exclude rule resolves to no field with the state untouched. -/
theorem resolveRawField_excluded_by_tag_witness :
    resolveRawField 3
      { opts := { flattenEmbedded := true, excludeByTags := [⟨"json", "-"⟩] },
        raws := [], imports := [], externalAliases := [],
        extStructs := fun _ _ => none }
      ⟨[], []⟩
      ⟨"Secret", "", TypeExpr.ident "string", some [("json", "-")], false⟩ =
      (⟨[], []⟩, []) :=
  resolveRawField_excluded_by_tag 3 _ _ _ [("json", "-")] ⟨"json", "-"⟩ "-"
    rfl (List.Mem.head _) (by decide) (by decide)

/-- C4: after successful normalization exactly one of the flatten-embedded
and include-embedded modes is active, and normalizing a configuration with
both or neither set never succeeds (the Go panic, a fatal error). -/
theorem normalize_embedded_modes_exclusive (o : Options) (args : List String) :
    (∀ o', Options.normalize o args = Except.ok o' →
      (o'.flattenEmbedded = true ∧ o'.includeEmbedded = false) ∨
      (o'.flattenEmbedded = false ∧ o'.includeEmbedded = true)) ∧
    (o.flattenEmbedded = o.includeEmbedded →
      ∀ o', Options.normalize o args ≠ Except.ok o') := by
  constructor
  · intro o' ho
    unfold Options.normalize at ho
    cases hfm : parseExcludeByTagStrings o.excludeByTags args with
    | error e => rw [hfm] at ho; simp at ho
    | ok filters =>
      rw [hfm] at ho
      by_cases hb : (o.flattenEmbedded == o.includeEmbedded) = true
      · simp only [hb, if_true] at ho
        simp at ho
      · simp only [Bool.not_eq_true] at hb
        simp only [hb, Bool.false_eq_true, if_false, Except.ok.injEq] at ho
        subst ho
        have hne : o.flattenEmbedded ≠ o.includeEmbedded := by
          intro h
          rw [h] at hb
          simp at hb
        cases hfe : o.flattenEmbedded <;> cases hie : o.includeEmbedded <;>
          simp_all
  · intro heq o' ho
    unfold Options.normalize at ho
    cases hfm : parseExcludeByTagStrings o.excludeByTags args with
    | error e => rw [hfm] at ho; simp at ho
    | ok filters =>
      rw [hfm, heq] at ho
      simp at ho

/-- C4 witness: with both modes set, normalization fails; a flatten-only
configuration normalizes with exactly the flatten mode active. -/
theorem normalize_embedded_modes_exclusive_witness :
    (∀ o', Options.normalize
        { flattenEmbedded := true, includeEmbedded := true } [] ≠ Except.ok o') ∧
    ((({ flattenEmbedded := true } : Options).flattenEmbedded = true ∧
      ({ flattenEmbedded := true } : Options).includeEmbedded = false) ∨
     (({ flattenEmbedded := true } : Options).flattenEmbedded = false ∧
      ({ flattenEmbedded := true } : Options).includeEmbedded = true)) :=
  ⟨(normalize_embedded_modes_exclusive
      { flattenEmbedded := true, includeEmbedded := true } []).2 rfl,
   (normalize_embedded_modes_exclusive { flattenEmbedded := true } []).1
     { flattenEmbedded := true, outDir := "dto", outFile := "api_gen.go",
       patchSuffix := "Patch" } rfl⟩

/-- C5: for a non-empty configured suffix, one run of the suffix pass on a
fresh (not yet name-resolved) type leaves a name ending in the suffix, and
a second run changes nothing — the pass never appends the suffix twice. -/
theorem applySuffix_appends_once_idempotent (opts : Options) (wt : WorkingType)
    (hs : opts.suffix ≠ "") (hn : wt.nameResolved = false) :
    hasSuffix (applySuffix opts wt).name opts.suffix = true ∧
    applySuffix opts (applySuffix opts wt) = applySuffix opts wt := by
  unfold applySuffix
  simp only [hn, Bool.false_eq_true, if_false, hs, if_neg (fun h => hs h)]
  cases h : hasSuffix wt.name opts.suffix with
  | true =>
    simp only [if_true]
    constructor
    · rw [WorkingType.withNameResolved_name]
      exact h
    · simp [WorkingType.withNameResolved_nameResolved]
  | false =>
    simp only [Bool.false_eq_true, if_false]
    constructor
    · rw [WorkingType.withNameResolved_name]
      exact hasSuffix_append wt.name opts.suffix
    · simp [WorkingType.withNameResolved_nameResolved]

/-- C5 witness: suffixing `User` with `DTO` once ends in `DTO`; doing it
again yields the same name. -/
theorem applySuffix_appends_once_idempotent_witness :
    hasSuffix (applySuffix { suffix := "DTO" }
        (.mk "User" "" Kind.struct none [] "" [] false false false false false false)).name
      "DTO" = true ∧
    applySuffix { suffix := "DTO" }
        (applySuffix { suffix := "DTO" }
          (.mk "User" "" Kind.struct none [] "" [] false false false false false false)) =
      applySuffix { suffix := "DTO" }
        (.mk "User" "" Kind.struct none [] "" [] false false false false false false) :=
  applySuffix_appends_once_idempotent { suffix := "DTO" }
    (.mk "User" "" Kind.struct none [] "" [] false false false false false false)
    (by decide) rfl

/-- C6: the collection-alias declaration `Widgets = []*Widget` (no
type-name suffix configured) maps end-to-end to an output struct with
`Alias = "Widget"`, `AliasPtr = true` and an empty field list; the
non-pointer form `[]Widget` yields `AliasPtr = false`. -/
theorem collection_alias_roundtrip :
    (ApiStructs.find (toApiStructs (buildAll 10 (bAlias true)) optsFl) "Widgets").map
        (fun a => (a.aliasName, a.aliasPtr, a.fields)) =
      some (some "Widget", some true, ([] : List ApiField)) ∧
    (ApiStructs.find (toApiStructs (buildAll 10 (bAlias false)) optsFl) "Widgets").map
        (fun a => (a.aliasName, a.aliasPtr, a.fields)) =
      some (some "Widget", some false, ([] : List ApiField)) :=
  ⟨rfl, rfl⟩

/-- C7 counterexample: a type whose comment reads `DEPRECATED: ...` does
contain the word deprecated under a case-insensitive comparison, yet with
exclusion enabled the deprecation-filtering pass does not mark it `Omit`
(the source checks only the two literal capitalizations `Deprecated` and
`deprecated`), and the whole transformation run leaves it un-omitted. -/
theorem filterDeprecated_uppercase_counterexample :
    strContains (strToLower wtDepCaps.comment) "deprecated" = true ∧
    optsDep.excludeDeprecated = true ∧
    (filterDeprecated optsDep wtDepCaps).omitFlag = false ∧
    (applyTransformations optsDep wtDepCaps).omitFlag = false := by
  refine ⟨by decide, rfl, by decide, by decide⟩

/-- C7 (amended): with exclude-deprecated enabled, a type whose own
comment contains the literal substring `Deprecated` or `deprecated` is
marked `Omit` by the deprecation-filtering pass and by the whole
transformation run, and `BuildAll` returns only un-omitted types (so such
a type is absent from the returned set); with the option disabled the
pass leaves the type untouched, all fields included. -/
theorem deprecated_type_filtering (opts : Options) (wt : WorkingType)
    (fuel : Nat) (b : Builder) :
    (opts.excludeDeprecated = true →
      (strContains wt.comment "Deprecated" = true ∨
       strContains wt.comment "deprecated" = true) →
      (filterDeprecated opts wt).omitFlag = true ∧
      (applyTransformations opts wt).omitFlag = true) ∧
    (∀ u ∈ buildAll fuel b, u.omitFlag = false) ∧
    (opts.excludeDeprecated = false → filterDeprecated opts wt = wt) := by
  refine ⟨?_, mem_buildAll_not_omitted fuel b, ?_⟩
  · intro hon hc
    have hcc : (strContains wt.comment "Deprecated" ||
        strContains wt.comment "deprecated") = true := by
      rcases hc with h | h <;> simp [h]
    have hfd : (filterDeprecated opts wt).omitFlag = true := by
      unfold filterDeprecated
      simp [hon, hcc, WorkingType.setOmit_omitFlag]
    refine ⟨hfd, ?_⟩
    unfold applyTransformations
    by_cases h0 : wt.omitFlag = true
    · simp [h0]
    · simp only [Bool.not_eq_true] at h0
      simp only [h0, Bool.false_eq_true, if_false]
      by_cases hex : isTypeExcluded opts wt.name = true
      · simp [hex, WorkingType.setOmit_omitFlag]
      · simp only [Bool.not_eq_true] at hex
        simp only [hex, Bool.false_eq_true, if_false]
        simp [hfd]
  · intro hoff
    unfold filterDeprecated
    simp [hoff]

/-- C7 witness: a `Deprecated:`-commented type is omitted by the pass and
the full run when exclusion is on, and untouched when it is off. -/
theorem deprecated_type_filtering_witness :
    (filterDeprecated optsDep wtDepLit).omitFlag = true ∧
    (applyTransformations optsDep wtDepLit).omitFlag = true ∧
    filterDeprecated optsNoDep wtDepLit = wtDepLit :=
  ⟨((deprecated_type_filtering optsDep wtDepLit 1 bEmpty).1 rfl (Or.inl (by decide))).1,
   ((deprecated_type_filtering optsDep wtDepLit 1 bEmpty).1 rfl (Or.inl (by decide))).2,
   (deprecated_type_filtering optsNoDep wtDepLit 1 bEmpty).2.2 rfl⟩

/-- C8 counterexample: with `ExcludeTypes = ["Widget"]` (the configured
entry not lowercase), a type named `Widget` matches the entry under a
case-insensitive comparison, yet the name-exclusion pass does not mark it
`Omit`: the source lowercases only the type name and compares it for
exact equality against the entries as configured, and nothing lowercases
the configured entries. -/
theorem isTypeExcluded_capitalized_entry_counterexample :
    equalFold "Widget" wtWidgetPlain.name = true ∧
    "Widget" ∈ optsExCaps.excludeTypes ∧
    isTypeExcluded optsExCaps wtWidgetPlain.name = false ∧
    (applyTransformations optsExCaps wtWidgetPlain).omitFlag = false := by
  refine ⟨by decide, by decide, by decide, by decide⟩

/-- C8 (amended): when the lowercased type name equals a configured
exclude-types entry exactly (so matching is case-insensitive in the type
name, while the configured entry must already be lowercase), the
name-exclusion pass marks the type `Omit` and runs no further pass on it
(the run's only effect is setting the flag), and `BuildAll` returns only
un-omitted types, so it never returns the type. -/
theorem excluded_name_marks_omit (opts : Options) (wt : WorkingType)
    (fuel : Nat) (b : Builder)
    (hne : wt.name ≠ "")
    (hmem : strToLower wt.name ∈ opts.excludeTypes) :
    applyTransformations opts wt = wt.setOmit ∧
    ∀ u ∈ buildAll fuel b, u.omitFlag = false := by
  refine ⟨?_, mem_buildAll_not_omitted fuel b⟩
  have hex : isTypeExcluded opts wt.name = true := by
    unfold isTypeExcluded
    have h1 : opts.excludeTypes.isEmpty = false := by
      cases hl : opts.excludeTypes with
      | nil => rw [hl] at hmem; simp at hmem
      | cons a l => simp
    have h2 : decide (wt.name = "") = false := by simp [hne]
    simp only [h1, h2, Bool.or_self, Bool.false_or, Bool.false_eq_true, if_false]
    rw [List.any_eq_true]
    exact ⟨strToLower wt.name, hmem, by simp⟩
  unfold applyTransformations
  by_cases h0 : wt.omitFlag = true
  · simp [h0, WorkingType.setOmit_of_omitFlag wt h0]
  · simp only [Bool.not_eq_true] at h0
    simp [h0, hex]

/-- C8 witness: the lowercase entry `widget` omits the type `Widget` with
no further transformation. -/
theorem excluded_name_marks_omit_witness :
    applyTransformations { flattenEmbedded := true, excludeTypes := ["widget"] }
        wtWidgetPlain = wtWidgetPlain.setOmit ∧
    ∀ u ∈ buildAll 1 bEmpty, u.omitFlag = false :=
  excluded_name_marks_omit { flattenEmbedded := true, excludeTypes := ["widget"] }
    wtWidgetPlain 1 bEmpty (by decide) (by decide)

/-- C9: when the count of declared generic parameter names differs from
the count of supplied arguments, instantiation still succeeds (the
function is total and the source has no error return): it proceeds with
the synthetic positional parameter names `T0`, `T1`, … — one per supplied
argument — and returns the instantiated struct with every field's type
substituted under those names, leaving the builder state untouched. -/
theorem instantiateGeneric_param_count_mismatch
    (fuel : Nat) (b : Builder) (s : BState) (base : WorkingType)
    (args : List WorkingType)
    (hk : base.kind = Kind.struct)
    (hx : base.isExternal = false)
    (hf : base.fields ≠ [])
    (hc : base.typeParams.length ≠ args.length) :
    instantiateGeneric fuel b s base args =
      (s, WorkingType.mk base.name base.pkgPath Kind.struct none
        (base.fields.map fun f => f.withType (substituteParamsInWT f.type
          ((List.range args.length).map (fun i => "T" ++ toString i)) args))
        base.comment [] base.isExternal false false false false false) := by
  cases base with
  | mk n p k u fs c tp e d o em nr aa =>
    simp only [WorkingType.kind] at hk
    simp only [WorkingType.isExternal] at hx
    simp only [WorkingType.fields] at hf
    simp only [WorkingType.typeParams] at hc
    subst hk
    subst hx
    cases fs with
    | nil => exact absurd rfl hf
    | cons f0 fs0 =>
      cases fuel <;>
        simp [instantiateGeneric, instantiateGenericTail, WorkingType.kind,
          WorkingType.underlying, WorkingType.isExternal, WorkingType.fields,
          WorkingType.typeParams, WorkingType.name, WorkingType.pkgPath,
          WorkingType.comment, beq_eq_false_iff_ne.mpr hc, WFieldP.withType]

/-- C9 witness: a one-parameter generic instantiated with two arguments
returns an instantiation under the names `T0`, `T1` without failing. -/
theorem instantiateGeneric_param_count_mismatch_witness :
    instantiateGeneric 1 bEmpty ⟨[], []⟩ baseGen
        [leafWT "int" Kind.builtin, leafWT "string" Kind.builtin] =
      (⟨[], []⟩, WorkingType.mk baseGen.name baseGen.pkgPath Kind.struct none
        (baseGen.fields.map fun f => f.withType (substituteParamsInWT f.type
          ((List.range 2).map (fun i => "T" ++ toString i))
          [leafWT "int" Kind.builtin, leafWT "string" Kind.builtin]))
        baseGen.comment [] baseGen.isExternal false false false false false) :=
  instantiateGeneric_param_count_mismatch 1 bEmpty ⟨[], []⟩ baseGen
    [leafWT "int" Kind.builtin, leafWT "string" Kind.builtin]
    rfl rfl (by simp [baseGen, WorkingType.fields]) (by decide)

/-- C10: under flatten-embedded mode, the structural embedding pass
removes an embedded wrapper field even when the embedded field's type is
not a struct or has an empty field list: its per-field contribution is
empty (nothing is spliced in its place), so the field vanishes from the
type entirely and the remaining fields are exactly the other fields'
contributions. -/
theorem flattenEmbedded_drops_opaque_wrapper (opts : Options)
    (wt : WorkingType) (f : WorkingField) (xs ys : List WorkingField)
    (hfl : opts.flattenEmbedded = true)
    (hk : wt.kind = Kind.struct)
    (hfs : wt.fields = xs ++ f :: ys)
    (hemb : f.embedded = true)
    (hsh : f.type.kind ≠ Kind.struct ∨ f.type.fields = []) :
    flattenEmbeddedField opts f = [] ∧
    (flattenEmbedded opts wt).fields =
      xs.flatMap (flattenEmbeddedField opts) ++
        ys.flatMap (flattenEmbeddedField opts) := by
  have hcond : (f.type.kind == Kind.struct && !f.type.fields.isEmpty) = false := by
    rcases hsh with h | h
    · simp [beq_eq_false_iff_ne.mpr h]
    · simp [h]
  have hcontrib : flattenEmbeddedField opts f = [] := by
    unfold flattenEmbeddedField
    simp [hemb, hfl, hcond]
  refine ⟨hcontrib, ?_⟩
  unfold flattenEmbedded
  simp only [hfl, Bool.not_true, Bool.false_eq_true, if_false, hk,
    beq_self_eq_true, WorkingType.withFields_fields, hfs]
  simp [List.flatMap_append, hcontrib]

/-- C10 witness: an embedded wrapper whose type is a pointer (not a
struct) is dropped with nothing spliced, emptying the field list. -/
theorem flattenEmbedded_drops_opaque_wrapper_witness :
    flattenEmbeddedField optsFl
        ⟨"Base", "Base", "", true, wrapWT Kind.pointer (leafWT "Base" Kind.struct),
          [], [], false, false⟩ = [] ∧
    (flattenEmbedded optsFl
        (.mk "Thing" "" Kind.struct none
          [⟨"Base", "Base", "", true, wrapWT Kind.pointer (leafWT "Base" Kind.struct),
            [], [], false, false⟩] "" [] false false false false false false)).fields =
      [].flatMap (flattenEmbeddedField optsFl) ++
        [].flatMap (flattenEmbeddedField optsFl) :=
  flattenEmbedded_drops_opaque_wrapper optsFl
    (.mk "Thing" "" Kind.struct none
      [⟨"Base", "Base", "", true, wrapWT Kind.pointer (leafWT "Base" Kind.struct),
        [], [], false, false⟩] "" [] false false false false false false)
    ⟨"Base", "Base", "", true, wrapWT Kind.pointer (leafWT "Base" Kind.struct),
      [], [], false, false⟩ [] []
    rfl rfl rfl rfl (Or.inl (by decide))

/-- C1 counterexample: in the end-to-end pipeline over
`Base{ID string}` embedded into `Thing` under include-embedded mode, the
base output field `Thing.Base` has the scalar leaf type `Base` (not a
collection: not a slice, no alias resolution, no raw alias), its raw
metadata carries no read-only marker — yet the synthesized
`ThingPatch.Base` field type is `*BasePatch`, not the base type wrapped
in one pointer level (`*Base`): the embedded branch of the synthesizer
renames the leaf before pointerizing. -/
theorem patchFieldType_embedded_scalar_counterexample :
    thingBaseFieldType = some tBaseLeaf ∧
    tBaseLeaf.isSlice = false ∧
    resolveAliasSliceElem ⟨optsInc, wtsEmb, rawsEmb⟩ tBaseLeaf = none ∧
    (RawStructs.find rawsEmb tBaseLeaf.name).bind (fun r => r.aliasName) = none ∧
    ((ApiStructs.find patchedEmb "ThingPatch").bind fun a =>
      (a.fields.find? (fun f => f.name == "Base")).map (fun f => f.rawTag)) = some [] ∧
    thingPatchBaseType = some ptrBasePatch ∧
    ptrBasePatch ≠ pointerizeTypeRef tBaseLeaf := by
  refine ⟨rfl, rfl, rfl, rfl, rfl, rfl, ?_⟩
  intro h
  exact absurd (congrArg leafName h) (by decide)

/-- C1 (amended): a field whose raw metadata marks it read-only,
create-only or primary-key under the gorm convention keeps exactly its
base type in the Patch struct; otherwise, if the field is not an embedded
wrapper and its type is a scalar (not a collection and not an alias to a
collection), the Patch field type is the base type wrapped in exactly one
additional pointer level.  (Embedded non-read-only fields instead become
a pointer to the Patch variant of their type.) -/
theorem patchFieldType_readonly_and_scalar (ctx : PatchCtx) (f : ApiField) :
    (isGormReadOnly f.rawTag = true → patchFieldType ctx f = f.type) ∧
    (isGormReadOnly f.rawTag = false → f.isEmbedded = false →
      f.type.isSlice = false →
      resolveAliasSliceElem ctx f.type = none →
      (RawStructs.find ctx.raws f.type.name).bind (fun r => r.aliasName) = none →
      patchFieldType ctx f = pointerizeTypeRef f.type) := by
  constructor
  · intro h
    simp [patchFieldType, h]
  · intro hro hemb hsl hra hraw
    simp only [patchFieldType, hro, Bool.false_eq_true, if_false, hemb]
    unfold buildPatchSliceFieldType
    cases hfind : RawStructs.find ctx.raws f.type.name with
    | none => simp [hsl, hra, hfind]
    | some raw =>
      rw [hfind] at hraw
      simp only [Option.some_bind] at hraw
      simp [hsl, hra, hfind, hraw]

/-- C1 witness: the primary-key field `ID uuid` keeps its type; the plain
scalar field `Age int` gains exactly one pointer level. -/
theorem patchFieldType_readonly_and_scalar_witness :
    patchFieldType ctxEmptyP roField = roField.type ∧
    patchFieldType ctxEmptyP ageField = pointerizeTypeRef ageField.type :=
  ⟨(patchFieldType_readonly_and_scalar ctxEmptyP roField).1 (by decide),
   (patchFieldType_readonly_and_scalar ctxEmptyP ageField).2 (by decide)
     rfl rfl rfl rfl⟩

/-- C2 counterexample: `Widgets` is declared `[]*Widget`
(`AliasPtr = true`), `Holder.Items` has type `Widgets`, and the alias
type is name-excluded so it is absent from the built graph; patch
synthesis then reaches the raw-declaration fallback and produces
`*PatchSlice[WidgetPatch]` with a non-pointer element — the original
collection element was a pointer, so the claimed "pointer if and only if"
fails at this input.  The same base element resolved through the built
graph (no exclusion) does preserve the pointer. -/
theorem buildPatchSliceFieldType_alias_fallback_counterexample :
    (RawStructs.find rawsFallback "Widgets").bind (fun r => r.aliasPtr) = some true ∧
    holderPatchItemsType =
      some (TypeRef.mk "" "PatchSlice" true false false
        (some (TypeRef.mk "" "WidgetPatch" false false false none))) ∧
    (holderPatchItemsType.bind TypeRef.elem).map TypeRef.isPtr = some false ∧
    buildPatchSliceFieldType
        ⟨optsFl, buildAll 10 (bAlias true), [rawWidget, rawWidgets true]⟩
        tWidgetsLeaf =
      TypeRef.mk "" "PatchSlice" true false false
        (some (TypeRef.mk "" "WidgetPatch" true false false
          (some (TypeRef.mk "" "WidgetPatch" false false false none)))) := by
  refine ⟨rfl, rfl, rfl, rfl⟩

/-- C2 (amended): a collection field (or a field resolving through the
built type graph to a collection alias) is rewritten to a pointer to the
`PatchSlice` wrapper whose element is the element's (DTO-resolved) name
plus the patch suffix, and the wrapper's element is a pointer exactly
when the base element is; when the alias resolves only through the
raw-declaration fallback (the alias type absent from the built graph),
the element is never a pointer — the declared element pointer flag is
ignored there. -/
theorem buildPatchSliceFieldType_cases (ctx : PatchCtx) (t e : TypeRef) :
    (t.isSlice = true → t.elem = some e →
      buildPatchSliceFieldType ctx t = patchSliceRefOf ctx.opts e) ∧
    (t.isSlice = false → resolveAliasSliceElem ctx t = some e →
      buildPatchSliceFieldType ctx t = patchSliceRefOf ctx.opts e) ∧
    (∀ an, t.isSlice = false → resolveAliasSliceElem ctx t = none →
      (RawStructs.find ctx.raws t.name).bind (fun r => r.aliasName) = some an →
      buildPatchSliceFieldType ctx t =
        patchSliceRefOf ctx.opts (TypeRef.mk "" an false false false none)) ∧
    (∀ be, ((patchSliceRefOf ctx.opts be).elem).map TypeRef.isPtr = some be.isPtr) := by
  refine ⟨?_, ?_, ?_, ?_⟩
  · intro hsl helem
    unfold buildPatchSliceFieldType
    simp [hsl, helem]
  · intro hsl hra
    unfold buildPatchSliceFieldType
    simp [hsl, hra]
  · intro an hsl hra hraw
    unfold buildPatchSliceFieldType
    cases hfind : RawStructs.find ctx.raws t.name with
    | none => rw [hfind] at hraw; simp at hraw
    | some raw =>
      rw [hfind] at hraw
      simp only [Option.some_bind] at hraw
      simp [hsl, hra, hfind, hraw]
  · intro be
    unfold patchSliceRefOf
    cases hbe : be.isPtr <;> simp [TypeRef.elem, TypeRef.isPtr]

/-- C2 witness: a direct `[]*Widget` field patches to the pointer-element
`PatchSlice`; a field of the declared alias type, resolved only through
the raw declarations, patches to the non-pointer-element `PatchSlice`. -/
theorem buildPatchSliceFieldType_cases_witness :
    buildPatchSliceFieldType ctxEmptyP tWidgetPtrSlice =
      patchSliceRefOf ctxEmptyP.opts
        (TypeRef.mk "" "Widget" true false false
          (some (TypeRef.mk "" "Widget" false false false none))) ∧
    buildPatchSliceFieldType ctxRawAlias tWidgetsLeaf =
      patchSliceRefOf ctxRawAlias.opts
        (TypeRef.mk "" "Widget" false false false none) :=
  ⟨(buildPatchSliceFieldType_cases ctxEmptyP tWidgetPtrSlice
      (TypeRef.mk "" "Widget" true false false
        (some (TypeRef.mk "" "Widget" false false false none)))).1 rfl rfl,
   ((buildPatchSliceFieldType_cases ctxRawAlias tWidgetsLeaf
      (TypeRef.mk "" "UNUSED" false false false none)).2.2.1 "Widget" rfl rfl rfl)⟩

end Apimodelgen
